import Mathlib

/-!
Shallow embedding of the payroll reconciliation / period-comparison engine
of this repository (the dashboard variant of `src/App.tsx`, plus the
half-month cycle logic of the payslip-report variant).  Numbers are
modelled as exact rationals (`ℚ`), JS `undefined` as `Option`, JS objects
used as string-keyed maps as insertion-ordered association lists, and the
fixed external paging API as an explicit fixture.
-/

namespace Payroll

/-- JS `a || b` on strings: `b` when `a` is `undefined` or the empty string
(the only falsy string), otherwise `a`. -/
def jsOrS (a : Option String) (b : String) : String :=
  match a with
  | none => b
  | some s => if s = "" then b else s

/-- `s.replace(/,/g, '')`: remove every comma from the string. -/
def stripCommas (s : String) : String :=
  (s.toList.filter (fun c => c ≠ ',')).asString

/-- Value of a digit list read in base 10. -/
def digitsToNat (ds : List Char) : ℕ :=
  ds.foldl (fun n c => 10 * n + (c.toNat - '0'.toNat)) 0

/-- JS `parseFloat`: skip leading whitespace, read an optional sign, an
integer part, an optional fraction part and an optional exponent, ignoring
any trailing garbage; `none` models a `NaN` result (no digits at all).
The `Infinity` literal and binary-float rounding are outside the model:
amounts are kept as exact rationals. -/
def parseFloat (s : String) : Option ℚ :=
  let cs := s.toList.dropWhile (fun c => c.isWhitespace)
  let signAndRest : ℚ × List Char :=
    match cs with
    | '-' :: rest => (-1, rest)
    | '+' :: rest => (1, rest)
    | _ => (1, cs)
  let sign := signAndRest.1
  let cs1 := signAndRest.2
  let intDs := cs1.takeWhile Char.isDigit
  let cs2 := cs1.dropWhile Char.isDigit
  let fracAndRest : List Char × List Char :=
    match cs2 with
    | '.' :: rest => (rest.takeWhile Char.isDigit, rest.dropWhile Char.isDigit)
    | _ => ([], cs2)
  let fracDs := fracAndRest.1
  let cs3 := fracAndRest.2
  if intDs.isEmpty && fracDs.isEmpty then none
  else
    let mantissa : ℚ :=
      sign * ((digitsToNat intDs : ℚ) + (digitsToNat fracDs : ℚ) / 10 ^ fracDs.length)
    let exp : ℤ :=
      match cs3 with
      | 'e' :: rest => parseExponent rest
      | 'E' :: rest => parseExponent rest
      | _ => 0
    some (mantissa * (10 : ℚ) ^ exp)
where
  /-- Exponent part after `e`/`E`: optional sign then digits; an exponent
  with no digits is ignored (JS backtracks to the longest valid prefix). -/
  parseExponent (rest : List Char) : ℤ :=
    let esAndRest : ℤ × List Char :=
      match rest with
      | '-' :: r => (-1, r)
      | '+' :: r => (1, r)
      | _ => (1, rest)
    let eDs := esAndRest.2.takeWhile Char.isDigit
    if eDs.isEmpty then 0 else esAndRest.1 * (digitsToNat eDs : ℤ)

/-- Print a nonnegative hundredths count `n` as `⌊n/100⌋.xy`. -/
def hundredthsToString (n : ℕ) : String :=
  toString (n / 100) ++ "." ++ (if n % 100 < 10 then "0" else "") ++ toString (n % 100)

/-- JS `x.toFixed(2)` on an exact rational: per the ES spec, a negative
input contributes a leading minus sign and is then treated as its absolute
value; the value is scaled by 100 and rounded to the nearest integer,
ties picking the larger integer. -/
def toFixed2 (q : ℚ) : String :=
  if q < 0 then "-" ++ hundredthsToString (Int.toNat ⌊(-q) * 100 + 1 / 2⌋)
  else hundredthsToString (Int.toNat ⌊q * 100 + 1 / 2⌋)

/-- `{ diff, percentChange }` as produced by `calculateDifference`. -/
structure DifferenceCalculation where
  diff : ℚ
  percentChange : String
deriving DecidableEq

/-- `calculateDifference` of the dashboard variant of `src/App.tsx`
(lines 413–419): `null` when `previous` is `undefined` or equal to
`current`; `{diff: current, percentChange: '100.00'}` when `previous` is
`0`; otherwise the signed difference with `(diff / previous) * 100`
rendered by `toFixed(2)`. -/
def calculateDifference (current : ℚ) (previous : Option ℚ) :
    Option DifferenceCalculation :=
  match previous with
  | none => none
  | some prev =>
    if current = prev then none
    else if prev = 0 then some ⟨current, "100.00"⟩
    else some ⟨current - prev, toFixed2 ((current - prev) / prev * 100)⟩

/-- The difference semantics exactly as the specification words them: the
`{diff: current, percentChange: "100.00"}` short-circuit is restricted to
`previous = 0 ∧ current > 0`, every other non-null case being sent to the
generic `(current - previous) / previous` formula.  Written from the
spec's words, for comparison with `calculateDifference` above. -/
def specCalculateDifference (current : ℚ) (previous : Option ℚ) :
    Option DifferenceCalculation :=
  match previous with
  | none => none
  | some prev =>
    if current = prev then none
    else if prev = 0 ∧ 0 < current then some ⟨current, "100.00"⟩
    else some ⟨current - prev, toFixed2 ((current - prev) / prev * 100)⟩

/-! ### Data model of the dashboard variant -/

/-- `line_item` of a `PaymentResponse`: the amount is a provider-formatted
decimal string, the currency an optional ISO code. -/
structure LineItem where
  amount : String
  currency : Option String
deriving DecidableEq

/-- The `contract` field embedded in a `PaymentResponse`. -/
structure PaymentContract where
  id : String
  name : String
deriving DecidableEq

/-- A `PaymentResponse` record from `/reports/detailed-payments`.
`payment.paid_at` is not consulted by the aggregation logic and is
omitted. -/
structure PaymentResponse where
  line_item : LineItem
  contract : PaymentContract
deriving DecidableEq

/-- The optional `worker` sub-object of a contract. -/
structure Worker where
  full_name : String
deriving DecidableEq

/-- A `DeelContract` of the dashboard variant: `type` is the provider's
contract-type enum value as a raw string. -/
structure DeelContract where
  id : String
  title : String
  type : String
  status : String
  job_title_name : Option String
  worker : Option Worker
deriving DecidableEq

/-- One row of the per-worker comparison (`EmployeePayment` in the
source); `Option` fields model the JS fields left `undefined`. -/
structure EmployeePayment where
  contractId : String
  name : String
  role : String
  status : String
  amount : ℚ
  previousAmount : Option ℚ
  change : Option ℚ
  percentChange : Option ℚ
  isTopChange : Option Bool
deriving DecidableEq

/-! ### String-keyed JS objects as insertion-ordered association lists -/

/-- Lookup in a JS object used as a map: the value at the first matching
key, `none` when the key is absent (JS `undefined`). -/
def alookup : List (String × ℚ) → String → Option ℚ
  | [], _ => none
  | (k, v) :: rest, key => if key = k then some v else alookup rest key

/-- `acc[k] = (acc[k] || 0) + a`: update the existing entry in place, or
append a fresh one at the end (JS string-keyed insertion order). -/
def addAmount : List (String × ℚ) → String → ℚ → List (String × ℚ)
  | [], k, a => [(k, a)]
  | (k', v) :: rest, k, a =>
    if k = k' then (k', v + a) :: rest else (k', v) :: addAmount rest k a

/-- The keys of an association list, in order. -/
def akeys (m : List (String × ℚ)) : List String := m.map Prod.fst

/-- Sum of the values of an association list. -/
def sumVals (m : List (String × ℚ)) : ℚ := (m.map Prod.snd).sum

/-- `new Set([...xs])` enumerated in order: first occurrence of each
element is kept, later duplicates dropped. -/
def firstDedup : List String → List String
  | [] => []
  | x :: xs => x :: (firstDedup xs).filter (fun y => y ≠ x)

/-! ### The aggregator (`processPayments`) -/

/-- JS `toUpperCase` on an ASCII currency code, modelled character by
character. -/
def jsToUpper (s : String) : String := (s.toList.map Char.toUpper).asString

/-- `p.line_item.currency?.toUpperCase() || 'USD'`. -/
def currencyOf (p : PaymentResponse) : String :=
  match p.line_item.currency with
  | none => "USD"
  | some c => let u := jsToUpper c; if u = "" then "USD" else u

/-- The filter of `processPayments`: currency normalises to `"USD"` and
the `contractId` is in the in-scope contract-identifier set. -/
def usdInScope (contractIds : List String) (p : PaymentResponse) : Bool :=
  decide (currencyOf p = "USD") && contractIds.contains p.contract.id

/-- `parseFloat(amount.replace(/,/g, ''))`: the amount parser. -/
def parseAmount (s : String) : Option ℚ := parseFloat (stripCommas s)

/-- Result of `processPayments`: the period total and the per-contract
sums (`paymentsByContract`). -/
structure PeriodAgg where
  totalCost : ℚ
  paymentsByContract : List (String × ℚ)
deriving DecidableEq

/-- `processPayments` of the dashboard variant (lines 425–446): keep the
in-scope USD payments, sum all their parsed amounts into `totalCost`
(`NaN` parses counting as `0`), and sum the parseable amounts per
contract identifier. -/
def processPayments (contractIds : List String) (payments : List PaymentResponse) :
    PeriodAgg :=
  let usdPayments := payments.filter (usdInScope contractIds)
  let totalCost :=
    usdPayments.foldl (fun acc p => acc + ((parseAmount p.line_item.amount).getD 0)) 0
  let paymentsByContract :=
    usdPayments.foldl (fun acc p =>
      match parseAmount p.line_item.amount with
      | some a => addAmount acc p.contract.id a
      | none => acc) []
  ⟨totalCost, paymentsByContract⟩

/-! ### The comparator (`processDashboardData`) -/

/-- One element of the `allContractIds.map(...)` comprehension
(lines 457–479): the per-worker comparison row for one contract
identifier, with the JS `||` fallback chains for the display fields. -/
def mkEmployeePayment (contracts : List DeelContract) (a1 a2 : PeriodAgg)
    (cid : String) : EmployeePayment :=
  let contract := contracts.find? (fun c => c.id = cid)
  let currentAmount := (alookup a1.paymentsByContract cid).getD 0
  let previousAmount := alookup a2.paymentsByContract cid
  { contractId := cid
    name := jsOrS (contract.bind (fun c => c.worker.map Worker.full_name))
      (jsOrS (contract.map DeelContract.title) "N/A")
    role := jsOrS (contract.bind DeelContract.job_title_name) "N/A"
    status := jsOrS (contract.map DeelContract.status) "active"
    amount := currentAmount
    previousAmount := previousAmount
    change := previousAmount.map (fun prev => currentAmount - prev)
    percentChange := previousAmount.map (fun prev =>
      if prev ≠ 0 then (currentAmount - prev) / prev * 100 else 100)
    isTopChange := none }

/-- The `employeePayments` list: the union (in first-occurrence order) of
the contract identifiers of both periods, mapped to comparison rows, and
restricted to rows whose current amount is strictly positive
(`.filter(p => p.amount > 0)`). -/
def employeePaymentsOf (contracts : List DeelContract) (a1 a2 : PeriodAgg) :
    List EmployeePayment :=
  ((firstDedup (akeys a1.paymentsByContract ++ akeys a2.paymentsByContract)).map
    (mkEmployeePayment contracts a1 a2)).filter (fun p => decide (0 < p.amount))

/-- `p.change !== undefined && p.change !== 0`. -/
def eligibleChange (p : EmployeePayment) : Bool :=
  match p.change with
  | some c => decide (c ≠ 0)
  | none => false

/-- `Math.abs(p.change!)`, defaulting to `0` on `undefined` (never hit on
the lists it is applied to). -/
def absChange (p : EmployeePayment) : ℚ :=
  match p.change with
  | some c => |c|
  | none => 0

/-- The ordering of `.sort((a, b) => Math.abs(b.change!) - Math.abs(a.change!))`:
descending absolute change. -/
def absDescOrder (a b : EmployeePayment) : Prop := absChange b ≤ absChange a

instance : DecidableRel absDescOrder := fun a b =>
  inferInstanceAs (Decidable (absChange b ≤ absChange a))

instance : IsTotal EmployeePayment absDescOrder :=
  ⟨fun a b => le_total (absChange b) (absChange a)⟩

instance : IsTrans EmployeePayment absDescOrder :=
  ⟨fun _ _ _ h1 h2 => le_trans h2 h1⟩

/-- The ordering of `.sort((a, b) => b.amount - a.amount)`: descending
current amount. -/
def amountDescOrder (a b : EmployeePayment) : Prop := b.amount ≤ a.amount

instance : DecidableRel amountDescOrder := fun a b =>
  inferInstanceAs (Decidable (b.amount ≤ a.amount))

instance : IsTotal EmployeePayment amountDescOrder :=
  ⟨fun a b => le_total b.amount a.amount⟩

instance : IsTrans EmployeePayment amountDescOrder :=
  ⟨fun _ _ _ h1 h2 => le_trans h2 h1⟩

/-- `topChanges` (lines 483–487): rows with a defined, nonzero change,
stably sorted by descending absolute change, the first five of them,
each tagged `isTopChange := true`. -/
def topChangesOf (eps : List EmployeePayment) : List EmployeePayment :=
  (((eps.filter eligibleChange).insertionSort absDescOrder).take 5).map
    (fun p => { p with isTopChange := some true })

/-- The tagging pass
`employeePayments.forEach(p => { p.isTopChange = topChangeIds.has(p.contractId); })`:
every row's `isTopChange` is set to whether its contract identifier is one
of the top changes. -/
def tagTop (topChangeIds : List String) (p : EmployeePayment) : EmployeePayment :=
  { p with isTopChange := some (topChangeIds.contains p.contractId) }

/-- The `period1` summary of the dashboard. -/
structure PeriodOneSummary where
  totalCost : ℚ
  count : ℕ
  payments : List EmployeePayment
  label : String
deriving DecidableEq

/-- The `period2` summary of the dashboard. -/
structure PeriodTwoSummary where
  totalCost : ℚ
  count : ℕ
  label : String
deriving DecidableEq

/-- `DashboardData` as returned by `processDashboardData`. -/
structure DashboardData where
  period1 : PeriodOneSummary
  period2 : PeriodTwoSummary
  costDiff : Option DifferenceCalculation
  countDiff : Option DifferenceCalculation
  topChanges : List EmployeePayment
deriving DecidableEq

/-- `processDashboardData` (lines 457–510): aggregate both periods over
the category's contract set, build the per-worker comparison rows, tag
the top-five absolute changes back into the full list, and assemble the
dashboard (the period labels, pure UI strings derived from the selected
month and year, are passed in). -/
def processDashboardData (contracts : List DeelContract)
    (period1Payments period2Payments : List PaymentResponse)
    (label1 label2 : String) : DashboardData :=
  let contractIds := contracts.map DeelContract.id
  let a1 := processPayments contractIds period1Payments
  let a2 := processPayments contractIds period2Payments
  let employeePayments := employeePaymentsOf contracts a1 a2
  let topChanges := topChangesOf employeePayments
  let topChangeIds := topChanges.map EmployeePayment.contractId
  let tagged := employeePayments.map (tagTop topChangeIds)
  { period1 :=
      { totalCost := a1.totalCost
        count := employeePayments.length
        payments := tagged.insertionSort amountDescOrder
        label := label1 }
    period2 :=
      { totalCost := a2.totalCost
        count := (akeys a2.paymentsByContract).length
        label := label2 }
    costDiff := calculateDifference a1.totalCost (some a2.totalCost)
    countDiff := calculateDifference (employeePayments.length : ℚ)
      (some ((akeys a2.paymentsByContract).length : ℚ))
    topChanges := topChanges }

/-! ### The paginated fetcher (`fetchAllPaginatedData`) -/

/-- `fetchAllPaginatedData` (lines 337–369) against an explicit provider
fixture: the provider holds `remaining` records past the current
`offset` and serves `remaining.take 50` for a request at `offset`
(uniform pages of size 50); `failAt offset = true` makes the request at
`offset` throw, which the `catch` turns into `hasMore = false`.  The loop
is polymorphic in the record type because it never inspects a record.
Returns the accumulated data together with the list of requested
offsets, in request order. -/
def fetchAllPaginatedData {α : Type} (failAt : ℕ → Bool) (offset : ℕ)
    (remaining : List α) : List α × List ℕ :=
  if failAt offset then ([], [offset])
  else if h : (remaining.take 50).length = 50 then
    let r := fetchAllPaginatedData failAt (offset + 50) (remaining.drop 50)
    (remaining.take 50 ++ r.1, offset :: r.2)
  else
    (remaining.take 50, [offset])
termination_by remaining.length
decreasing_by
  simp only [List.length_drop]
  simp only [List.length_take] at h
  omega

/-! ### The half-month cycle split (payslip-report variant) -/

/-- A payslip of the payslip-report variant; only the country drives the
cycle split. -/
structure EORPayslip where
  id : String
  employee_name : String
  country : String
  net_pay : String
  status : String
deriving DecidableEq

/-- Month names as produced by `toLocaleString('default', { month: 'long' })`
in the default `en` locale; `getUTCMonth()` is zero-based, here indexed by
the one-based month. -/
def monthName (month : ℕ) : String :=
  (["January", "February", "March", "April", "May", "June", "July",
    "August", "September", "October", "November", "December"]).getD (month - 1) ""

/-- `String(n).padStart(2, '0')`. -/
def pad2 (n : ℕ) : String :=
  if n < 10 then "0" ++ toString n else toString n

/-- The cycle identifier and label of `fetchAllPayrollData` (payslip-report
variant of the source, lines 71–96).  `year`, `month` (one-based) and
`day` are the components that `getUTCFullYear()`, `getUTCMonth() + 1`
and `getUTCDate()` extract from the report's `start_date` (a valid
`YYYY-MM-DD` string parsed as UTC midnight).  When some payslip of the
cycle has country `"US"`, the identifier and label are refined by the
start day: day `< 16` appends `-1` / `" (1st Half)"`, otherwise `-2` /
`" (2nd Half)"`. -/
def cycleIdAndLabel (year month day : ℕ) (payslips : List EORPayslip) :
    String × String :=
  let cycleId := toString year ++ "-" ++ pad2 month
  let cycleLabel := monthName month ++ " " ++ toString year
  if payslips.any (fun p => p.country = "US") then
    if day < 16 then (cycleId ++ "-1", cycleLabel ++ " (1st Half)")
    else (cycleId ++ "-2", cycleLabel ++ " (2nd Half)")
  else (cycleId, cycleLabel)

/-! ### Helper lemmas about the paginated fetcher -/

theorem rangeMapShift (offset k : ℕ) :
    (List.range (k + 1)).map (fun i => offset + 50 * i) =
      offset :: (List.range k).map (fun i => offset + 50 + 50 * i) := by
  rw [List.range_succ_eq_map, List.map_cons, List.map_map]
  have hfun : ((fun i => offset + 50 * i) ∘ Nat.succ) =
      (fun i => offset + 50 + 50 * i) := by
    funext i
    simp only [Function.comp_apply, Nat.succ_eq_add_one]
    ring
  rw [hfun]
  norm_num

theorem fetch_noFail_aux {α : Type} (n : ℕ) :
    ∀ (remaining : List α) (offset : ℕ), remaining.length ≤ n →
      fetchAllPaginatedData (fun _ => false) offset remaining =
        (remaining,
          (List.range (remaining.length / 50 + 1)).map (fun i => offset + 50 * i)) := by
  induction n using Nat.strong_induction_on with
  | _ n ih =>
    intro remaining offset hlen
    rw [fetchAllPaginatedData]
    simp only [Bool.false_eq_true, if_false]
    by_cases h : (remaining.take 50).length = 50
    · rw [dif_pos h]
      have hlen50 : 50 ≤ remaining.length := by
        simp only [List.length_take] at h; omega
      have hrec := ih (remaining.length - 50) (by omega) (remaining.drop 50)
        (offset + 50) (by simp only [List.length_drop]; omega)
      rw [hrec]
      refine Prod.ext ?_ ?_
      · simp only [List.take_append_drop]
      · simp only [List.length_drop]
        have hdiv : remaining.length / 50 + 1 = ((remaining.length - 50) / 50 + 1) + 1 := by
          omega
        rw [hdiv]
        exact (rangeMapShift offset ((remaining.length - 50) / 50 + 1)).symm
    · rw [dif_neg h]
      have hshort : remaining.length < 50 := by
        simp only [List.length_take] at h; omega
      have hdiv : remaining.length / 50 = 0 := by omega
      rw [List.take_of_length_le (le_of_lt hshort), hdiv]
      simp [List.range_succ]

/-- Against a fixture with no failing page, the fetcher returns the whole
fixture in order and requests offsets `0, 50, …, 50 * (N / 50)`. -/
theorem fetch_noFail {α : Type} (records : List α) :
    fetchAllPaginatedData (fun _ => false) 0 records =
      (records, (List.range (records.length / 50 + 1)).map (fun i => 50 * i)) := by
  rw [fetch_noFail_aux records.length records 0 le_rfl]
  simp

theorem fetch_fail_aux {α : Type} :
    ∀ (k : ℕ) (remaining : List α) (offset : ℕ) (failAt : ℕ → Bool),
      (∀ j, j < k → failAt (offset + 50 * j) = false) →
      failAt (offset + 50 * k) = true →
      50 * k ≤ remaining.length →
      fetchAllPaginatedData failAt offset remaining =
        (remaining.take (50 * k),
          (List.range (k + 1)).map (fun i => offset + 50 * i)) := by
  intro k
  induction k with
  | zero =>
    intro remaining offset failAt _ hfail _
    simp only [Nat.mul_zero, Nat.add_zero] at hfail
    rw [fetchAllPaginatedData, if_pos hfail]
    simp [List.range_succ]
  | succ k ih =>
    intro remaining offset failAt hbefore hfail hlen
    have h0 : failAt offset = false := by
      have := hbefore 0 (by omega)
      simpa using this
    have hlen50 : 50 ≤ remaining.length := by
      have : 50 * (k + 1) ≤ remaining.length := hlen
      omega
    rw [fetchAllPaginatedData, h0]
    simp only [Bool.false_eq_true, if_false]
    have hfull : (remaining.take 50).length = 50 := by
      simp only [List.length_take]; omega
    rw [dif_pos hfull]
    have hb' : ∀ j, j < k → failAt (offset + 50 + 50 * j) = false := by
      intro j hj
      have heq : offset + 50 + 50 * j = offset + 50 * (j + 1) := by ring
      rw [heq]
      exact hbefore (j + 1) (by omega)
    have hf' : failAt (offset + 50 + 50 * k) = true := by
      have heq : offset + 50 + 50 * k = offset + 50 * (k + 1) := by ring
      rw [heq]; exact hfail
    have hl' : 50 * k ≤ (remaining.drop 50).length := by
      simp only [List.length_drop]; omega
    rw [ih (remaining.drop 50) (offset + 50) failAt hb' hf' hl']
    refine Prod.ext ?_ ?_
    · have : 50 * (k + 1) = 50 + 50 * k := by ring
      rw [this, List.take_add]
    · exact (rangeMapShift offset (k + 1)).symm

/-! ### C3: pagination request count, distinctness and order -/

/-- Claim C3, amended: against a fixture of `N` records served in uniform
pages of size 50, `fetchAllPaginatedData` returns exactly the `N` records
in provider order and requests pairwise-distinct offsets; the number of
page requests is `⌊N / 50⌋ + 1` — equal to `⌈N / 50⌉` whenever 50 does
not divide `N`, and one more than `⌈N / 50⌉` (a final empty page probe)
whenever it does. -/
theorem C3_pagination_exhausts_fixture {α : Type} (records : List α) :
    (fetchAllPaginatedData (fun _ => false) 0 records).1 = records ∧
    (fetchAllPaginatedData (fun _ => false) 0 records).2.Nodup ∧
    (fetchAllPaginatedData (fun _ => false) 0 records).2.length =
      records.length / 50 + 1 := by
  rw [fetch_noFail records]
  refine ⟨rfl, ?_, ?_⟩
  · exact (List.nodup_range _).map (fun a b hab => by omega)
  · simp

/-- Claim C3 is false as stated: at a fixture of exactly `N = 50` records
the fetcher issues 2 page requests (the full page, then an empty probe),
not `⌈50 / 50⌉ = 1`. -/
theorem C3_counterexample :
    (fetchAllPaginatedData (fun _ => false) 0 (List.replicate 50 (0 : ℕ))).2.length = 2 ∧
    (fetchAllPaginatedData (fun _ => false) 0 (List.replicate 50 (0 : ℕ))).2.length ≠
      (50 + 50 - 1) / 50 := by
  rw [fetch_noFail]
  simp

/-! ### C4: behaviour on a failing page request -/

/-- Claim C4, amended: if the first `k` page requests succeed with full
pages and the `(k+1)`-st request (offset `50 * k`) fails, the fetcher
stops requesting further pages and returns exactly the `50 * k` records
accumulated from the pages already retrieved; no exception propagates to
the caller (the run is not aborted), but no warning is reported either —
the failure is only logged to the console. -/
theorem C4_failure_partial_result {α : Type} (records : List α)
    (failAt : ℕ → Bool) (k : ℕ)
    (hbefore : ∀ j, j < k → failAt (50 * j) = false)
    (hfail : failAt (50 * k) = true)
    (hlen : 50 * k ≤ records.length) :
    fetchAllPaginatedData failAt 0 records =
      (records.take (50 * k), (List.range (k + 1)).map (fun i => 50 * i)) := by
  have h := fetch_fail_aux k records 0 failAt
    (fun j hj => by simpa using hbefore j hj) (by simpa using hfail) hlen
  simpa using h

/-- Witness for C4's theorem: a 60-record fixture whose second page
request (offset 50) fails returns exactly the first 50 records. -/
theorem C4_failure_partial_result_witness :
    fetchAllPaginatedData (fun o => decide (o = 50)) 0 (List.range 60) =
      ((List.range 60).take 50, (List.range 2).map (fun i => 50 * i)) :=
  C4_failure_partial_result (List.range 60) (fun o => decide (o = 50)) 1
    (by decide) (by decide) (by simp)

/-- Claim C4 is false in its reporting half: a fixture of 60 records whose
second page request fails produces output equal to that of a complete,
failure-free fetch of a 50-record fixture — the caller receives no
recoverable warning and cannot even distinguish the partial run from a
successful one. -/
theorem C4_counterexample :
    fetchAllPaginatedData (fun o => decide (o = 50)) 0 (List.range 60) =
      fetchAllPaginatedData (fun _ => false) 0 (List.range 50) := by
  rw [fetch_fail_aux 1 (List.range 60) 0 _ (by decide) (by decide) (by simp),
    fetch_noFail]
  simp [List.take_range]

/-! ### Helper lemmas for evaluating `toFixed2` on concrete rationals -/

theorem toFixed2_of_floor (q : ℚ) (n : ℕ) (h0 : 0 ≤ q)
    (h : ⌊q * 100 + 1 / 2⌋ = (n : ℤ)) :
    toFixed2 q = hundredthsToString n := by
  rw [toFixed2, if_neg (not_lt.mpr h0), h]
  simp

theorem toFixed2_fifty : toFixed2 50 = "50.00" := by
  have h : ⌊(50 : ℚ) * 100 + 1 / 2⌋ = (5000 : ℤ) := by
    rw [Int.floor_eq_iff]
    constructor <;> norm_num
  exact (toFixed2_of_floor 50 5000 (by norm_num) h).trans (by decide)

theorem toFixed2_zero : toFixed2 0 = "0.00" := by
  have h : ⌊(0 : ℚ) * 100 + 1 / 2⌋ = ((0 : ℕ) : ℤ) := by
    rw [Int.floor_eq_iff]
    constructor <;> norm_num
  exact (toFixed2_of_floor 0 0 (by norm_num) h).trans (by decide)

/-! ### C1: difference semantics -/

/-- Claim C1, amended: `calculateDifference` returns `null` when the
previous value is undefined or equal to the current one; when the
previous value is `0` (and differs from the current one, of either sign
— not only `current > 0`) it returns `{diff: current, percentChange:
"100.00"}`; in every remaining case (previous defined, nonzero and
different from current) it returns the signed difference with
`(diff / previous) * 100` formatted to exactly two fraction digits — in
particular `previous = 100, current = 150` yields
`{diff: 50, percentChange: "50.00"}`. -/
theorem C1_diff_semantics (current : ℚ) (previous : Option ℚ) :
    (previous = none → calculateDifference current previous = none) ∧
    (∀ p, previous = some p → current = p →
      calculateDifference current previous = none) ∧
    (previous = some 0 → current ≠ 0 →
      calculateDifference current previous = some ⟨current, "100.00"⟩) ∧
    (∀ p, previous = some p → p ≠ 0 → current ≠ p →
      calculateDifference current previous =
        some ⟨current - p, toFixed2 ((current - p) / p * 100)⟩) ∧
    calculateDifference 150 (some 100) = some ⟨50, "50.00"⟩ := by
  refine ⟨?_, ?_, ?_, ?_, ?_⟩
  · intro h; subst h; rfl
  · intro p hp hc; subst hp; simp [calculateDifference, hc]
  · intro hp hc; subst hp; simp [calculateDifference, hc]
  · intro p hp hpne hcne; subst hp; simp [calculateDifference, hcne, hpne]
  · have h1 : (150 : ℚ) ≠ 100 := by norm_num
    have h2 : (100 : ℚ) ≠ 0 := by norm_num
    simp only [calculateDifference, if_neg h1, if_neg h2]
    have harg : ((150 : ℚ) - 100) / 100 * 100 = 50 := by norm_num
    rw [harg, toFixed2_fifty]
    norm_num

/-- Witness for C1's theorem at the inputs the claim itself names:
`previous = current = 100`, `previous = 0 ∧ current = 80`, and
`previous = 100, current = 150`. -/
theorem C1_diff_semantics_witness :
    calculateDifference 100 (some 100) = none ∧
    calculateDifference 80 (some 0) = some ⟨80, "100.00"⟩ ∧
    calculateDifference 150 (some 100) =
      some ⟨150 - 100, toFixed2 ((150 - 100) / 100 * 100)⟩ :=
  ⟨(C1_diff_semantics 100 (some 100)).2.1 100 rfl rfl,
   (C1_diff_semantics 80 (some 0)).2.2.1 rfl (by norm_num),
   (C1_diff_semantics 150 (some 100)).2.2.2.1 100 rfl (by norm_num) (by norm_num)⟩

/-- Claim C1 is false as stated at `current = -5, previous = 0`: the code
short-circuits on `previous === 0` for any differing current value and
returns `percentChange = "100.00"`, while the claim's "otherwise" branch
prescribes the `(diff / previous) * 100` formula (division by zero — in
the rational model it yields `"0.00"`; under JS floats it would render
`"-Infinity"` — in no reading `"100.00"`). -/
theorem C1_counterexample :
    calculateDifference (-5) (some 0) = some ⟨-5, "100.00"⟩ ∧
    specCalculateDifference (-5) (some 0) = some ⟨-5, "0.00"⟩ ∧
    specCalculateDifference (-5) (some 0) ≠ calculateDifference (-5) (some 0) := by
  have hne : (-5 : ℚ) ≠ 0 := by norm_num
  have h1 : calculateDifference (-5) (some 0) = some ⟨-5, "100.00"⟩ := by
    simp [calculateDifference, hne]
  have h2 : specCalculateDifference (-5) (some 0) = some ⟨-5, "0.00"⟩ := by
    have hcond : ¬ ((0 : ℚ) = 0 ∧ (0 : ℚ) < -5) := by norm_num
    simp only [specCalculateDifference, if_neg hne, if_neg hcond]
    rw [show ((-5 : ℚ) - 0) / 0 * 100 = 0 by norm_num, toFixed2_zero]
    norm_num
  refine ⟨h1, h2, ?_⟩
  rw [h1, h2]
  simp

/-! ### C8: EOR half-month cycle split -/

/-- Claim C8: in report-cycle mode, a cycle whose payslip set contains a
worker with country `"US"` gets identifier `YYYY-MM-1` and a label ending
in `" (1st Half)"` when the cycle-start day is below 16, and `YYYY-MM-2`
with `" (2nd Half)"` when the day is 16 or more; a cycle with no US
payslip keeps the plain `YYYY-MM` identifier regardless of the day. -/
theorem C8_half_month_split (year month day : ℕ) (payslips : List EORPayslip) :
    (payslips.any (fun p => p.country = "US") = true →
      (day < 16 → cycleIdAndLabel year month day payslips =
        (toString year ++ "-" ++ pad2 month ++ "-1",
          monthName month ++ " " ++ toString year ++ " (1st Half)")) ∧
      (16 ≤ day → cycleIdAndLabel year month day payslips =
        (toString year ++ "-" ++ pad2 month ++ "-2",
          monthName month ++ " " ++ toString year ++ " (2nd Half)"))) ∧
    (payslips.any (fun p => p.country = "US") = false →
      cycleIdAndLabel year month day payslips =
        (toString year ++ "-" ++ pad2 month,
          monthName month ++ " " ++ toString year)) := by
  constructor
  · intro hus
    constructor
    · intro hd
      simp [cycleIdAndLabel, hus, hd]
    · intro hd
      have hnd : ¬ day < 16 := by omega
      simp [cycleIdAndLabel, hus, hnd]
  · intro hus
    simp [cycleIdAndLabel, hus]

/-- Witness for C8's theorem at the spec's own examples: a March 2024
cycle with a US payslip starting on the 1st and on the 20th, and one with
no US payslip. -/
theorem C8_half_month_split_witness :
    cycleIdAndLabel 2024 3 1 [⟨"p1", "A", "US", "1000", "paid"⟩] =
      ("2024-03-1", "March 2024 (1st Half)") ∧
    cycleIdAndLabel 2024 3 20 [⟨"p1", "A", "US", "1000", "paid"⟩] =
      ("2024-03-2", "March 2024 (2nd Half)") ∧
    cycleIdAndLabel 2024 3 20 [⟨"p2", "B", "DE", "1000", "paid"⟩] =
      ("2024-03", "March 2024") :=
  ⟨(((C8_half_month_split 2024 3 1 _).1 (by decide)).1 (by decide)).trans (by decide),
   (((C8_half_month_split 2024 3 20 _).1 (by decide)).2 (by decide)).trans (by decide),
   ((C8_half_month_split 2024 3 20 _).2 (by decide)).trans (by decide)⟩

/-! ### Helper lemmas about the association-list object model -/

theorem sumVals_nil : sumVals [] = 0 := rfl

theorem sumVals_cons (kv : String × ℚ) (m : List (String × ℚ)) :
    sumVals (kv :: m) = kv.2 + sumVals m := by
  simp [sumVals]

theorem sumVals_addAmount (m : List (String × ℚ)) (k : String) (a : ℚ) :
    sumVals (addAmount m k a) = sumVals m + a := by
  induction m with
  | nil => simp [addAmount, sumVals]
  | cons kv rest ih =>
    obtain ⟨k', v⟩ := kv
    by_cases h : k = k'
    · simp only [addAmount, if_pos h, sumVals_cons]
      ring
    · simp only [addAmount, if_neg h, sumVals_cons, ih]
      ring

theorem mem_akeys_addAmount (m : List (String × ℚ)) (k x : String) (a : ℚ) :
    x ∈ akeys (addAmount m k a) ↔ x ∈ akeys m ∨ x = k := by
  induction m with
  | nil => simp [addAmount, akeys]
  | cons kv rest ih =>
    obtain ⟨k', v⟩ := kv
    by_cases h : k = k'
    · subst h
      simp only [addAmount, if_pos rfl]
      simp [akeys, List.mem_cons]
      tauto
    · simp only [addAmount, if_neg h]
      simp only [akeys, List.map_cons, List.mem_cons] at *
      rw [ih]
      tauto

theorem nodup_akeys_addAmount (m : List (String × ℚ)) (k : String) (a : ℚ)
    (hm : (akeys m).Nodup) : (akeys (addAmount m k a)).Nodup := by
  induction m with
  | nil => simp [addAmount, akeys]
  | cons kv rest ih =>
    obtain ⟨k', v⟩ := kv
    simp only [akeys, List.map_cons, List.nodup_cons] at hm
    by_cases h : k = k'
    · subst h
      have hstep : addAmount ((k, v) :: rest) k a = (k, v + a) :: rest := by
        simp [addAmount]
      rw [hstep]
      simp only [akeys, List.map_cons, List.nodup_cons]
      exact hm
    · simp only [addAmount, if_neg h]
      simp only [akeys, List.map_cons, List.nodup_cons]
      refine ⟨?_, ih hm.2⟩
      intro hmem
      rcases (mem_akeys_addAmount rest k k' a).mp hmem with h1 | h1
      · exact hm.1 h1
      · exact h (h1.symm)

theorem alookup_eq_none (m : List (String × ℚ)) (k : String) :
    alookup m k = none ↔ k ∉ akeys m := by
  induction m with
  | nil => simp [alookup, akeys]
  | cons kv rest ih =>
    obtain ⟨k', v⟩ := kv
    by_cases h : k = k'
    · simp [alookup, akeys, h]
    · simp [alookup, akeys, h, ih]

theorem alookup_cons_ne (rest : List (String × ℚ)) (k' : String) (v : ℚ)
    (k : String) (h : k ≠ k') : alookup ((k', v) :: rest) k = alookup rest k := by
  simp [alookup, h]

/-! ### Helper lemmas about `processPayments` -/

/-- The parsed contribution of one payment record to the period total:
its parsed amount, or `0` when parsing fails. -/
def parsedOf (p : PaymentResponse) : ℚ := (parseAmount p.line_item.amount).getD 0

theorem foldl_total (ps : List PaymentResponse) (t : ℚ) :
    ps.foldl (fun acc p => acc + (parseAmount p.line_item.amount).getD 0) t =
      t + (ps.map parsedOf).sum := by
  induction ps generalizing t with
  | nil => simp
  | cons p ps ih =>
    simp only [List.foldl_cons, List.map_cons, List.sum_cons, ih]
    rw [parsedOf]
    ring

theorem foldl_pbc_sum (ps : List PaymentResponse) (m : List (String × ℚ)) :
    sumVals (ps.foldl (fun acc p =>
        match parseAmount p.line_item.amount with
        | some a => addAmount acc p.contract.id a
        | none => acc) m) =
      sumVals m + (ps.map parsedOf).sum := by
  induction ps generalizing m with
  | nil => simp
  | cons p ps ih =>
    simp only [List.foldl_cons, List.map_cons, List.sum_cons]
    cases hp : parseAmount p.line_item.amount with
    | none =>
      rw [ih]
      simp [parsedOf, hp]
    | some a =>
      rw [ih, sumVals_addAmount]
      simp only [parsedOf, hp, Option.getD_some]
      ring

theorem foldl_pbc_nodup (ps : List PaymentResponse) (m : List (String × ℚ))
    (hm : (akeys m).Nodup) :
    (akeys (ps.foldl (fun acc p =>
        match parseAmount p.line_item.amount with
        | some a => addAmount acc p.contract.id a
        | none => acc) m)).Nodup := by
  induction ps generalizing m with
  | nil => exact hm
  | cons p ps ih =>
    simp only [List.foldl_cons]
    cases hp : parseAmount p.line_item.amount with
    | none => exact ih m hm
    | some a => exact ih _ (nodup_akeys_addAmount m p.contract.id a hm)

/-- Conservation: the period total equals the sum of the per-contract
sums (amounts that fail to parse contribute `0` to the total and no
per-contract entry). -/
theorem processPayments_conservation (ids : List String)
    (pays : List PaymentResponse) :
    (processPayments ids pays).totalCost =
      sumVals (processPayments ids pays).paymentsByContract := by
  simp only [processPayments]
  rw [foldl_total, foldl_pbc_sum]
  simp [sumVals]

theorem processPayments_nodup (ids : List String) (pays : List PaymentResponse) :
    (akeys (processPayments ids pays).paymentsByContract).Nodup := by
  simp only [processPayments]
  exact foldl_pbc_nodup _ [] (by simp [akeys])

/-! ### Helper lemmas for the worker count -/

theorem countP_keys (m : List (String × ℚ)) (hm : (akeys m).Nodup) :
    (akeys m).countP (fun cid => decide (0 < (alookup m cid).getD 0)) =
      m.countP (fun kv => decide (0 < kv.2)) := by
  induction m with
  | nil => simp [akeys]
  | cons kv rest ih =>
    obtain ⟨k, v⟩ := kv
    simp only [akeys, List.map_cons, List.nodup_cons] at hm
    rw [akeys, List.map_cons, List.countP_cons, List.countP_cons]
    have hhead : alookup ((k, v) :: rest) k = some v := by simp [alookup]
    have htail : (List.map Prod.fst rest).countP
        (fun cid => decide (0 < (alookup ((k, v) :: rest) cid).getD 0)) =
        (List.map Prod.fst rest).countP
        (fun cid => decide (0 < (alookup rest cid).getD 0)) := by
      refine List.countP_congr ?_
      intro x hx
      have hne : x ≠ k := fun hxk => hm.1 (hxk ▸ hx)
      rw [alookup_cons_ne rest k v x hne]
    rw [htail, hhead]
    have hrec := ih hm.2
    rw [akeys] at hrec
    rw [hrec]
    simp

theorem mem_firstDedup (l : List String) (x : String) :
    x ∈ firstDedup l ↔ x ∈ l := by
  induction l with
  | nil => simp [firstDedup]
  | cons a l ih =>
    simp only [firstDedup, List.mem_cons, List.mem_filter]
    constructor
    · rintro (h | ⟨h1, _⟩)
      · exact Or.inl h
      · exact Or.inr (ih.mp h1)
    · rintro (h | h)
      · exact Or.inl h
      · by_cases hxa : x = a
        · exact Or.inl hxa
        · exact Or.inr ⟨ih.mpr h, by simpa using hxa⟩

theorem firstDedup_append (l1 l2 : List String) (h1 : l1.Nodup) :
    firstDedup (l1 ++ l2) =
      l1 ++ (firstDedup l2).filter (fun y => decide (y ∉ l1)) := by
  induction l1 with
  | nil => simp
  | cons a l1 ih =>
    simp only [List.nodup_cons] at h1
    have hstep : firstDedup ((a :: l1) ++ l2) =
        a :: (firstDedup (l1 ++ l2)).filter (fun y => decide (y ≠ a)) := rfl
    rw [hstep, ih h1.2, List.filter_append, List.cons_append]
    congr 1
    congr 1
    · rw [List.filter_eq_self.mpr]
      intro x hx
      have hxa : x ≠ a := fun h => h1.1 (h ▸ hx)
      simpa using hxa
    · rw [List.filter_filter]
      refine List.filter_congr ?_
      intro x hx
      by_cases hxa : x = a <;> by_cases hxl : x ∈ l1 <;> simp [hxa, hxl]

/-! ### Projections of a comparison row -/

theorem mk_contractId (contracts : List DeelContract) (a1 a2 : PeriodAgg)
    (cid : String) : (mkEmployeePayment contracts a1 a2 cid).contractId = cid := rfl

theorem mk_amount (contracts : List DeelContract) (a1 a2 : PeriodAgg)
    (cid : String) : (mkEmployeePayment contracts a1 a2 cid).amount =
      (alookup a1.paymentsByContract cid).getD 0 := rfl

theorem mk_previousAmount (contracts : List DeelContract) (a1 a2 : PeriodAgg)
    (cid : String) : (mkEmployeePayment contracts a1 a2 cid).previousAmount =
      alookup a2.paymentsByContract cid := rfl

theorem mk_change (contracts : List DeelContract) (a1 a2 : PeriodAgg)
    (cid : String) : (mkEmployeePayment contracts a1 a2 cid).change =
      (alookup a2.paymentsByContract cid).map
        (fun prev => (alookup a1.paymentsByContract cid).getD 0 - prev) := rfl

theorem mk_percentChange (contracts : List DeelContract) (a1 a2 : PeriodAgg)
    (cid : String) : (mkEmployeePayment contracts a1 a2 cid).percentChange =
      (alookup a2.paymentsByContract cid).map
        (fun prev => if prev ≠ 0 then
          ((alookup a1.paymentsByContract cid).getD 0 - prev) / prev * 100
          else 100) := rfl

theorem mk_isTopChange (contracts : List DeelContract) (a1 a2 : PeriodAgg)
    (cid : String) : (mkEmployeePayment contracts a1 a2 cid).isTopChange = none := rfl

/-! ### The worker count of the current period -/

/-- Every row of `employeePaymentsOf` arises from a contract identifier in
the union and carries a strictly positive current amount. -/
theorem mem_employeePaymentsOf (contracts : List DeelContract) (a1 a2 : PeriodAgg)
    (e : EmployeePayment) :
    e ∈ employeePaymentsOf contracts a1 a2 ↔
      ∃ cid, cid ∈ firstDedup (akeys a1.paymentsByContract ++ akeys a2.paymentsByContract) ∧
        e = mkEmployeePayment contracts a1 a2 cid ∧ 0 < e.amount := by
  simp only [employeePaymentsOf, List.mem_filter, List.mem_map]
  constructor
  · rintro ⟨⟨cid, hcid, rfl⟩, hpos⟩
    exact ⟨cid, hcid, rfl, by simpa using hpos⟩
  · rintro ⟨cid, hcid, rfl, hpos⟩
    exact ⟨⟨cid, hcid, rfl⟩, by simpa using hpos⟩

/-- The current worker count equals the number of per-contract entries of
the current period whose summed amount is strictly positive. -/
theorem employeePaymentsOf_length (contracts : List DeelContract) (a1 a2 : PeriodAgg)
    (h1 : (akeys a1.paymentsByContract).Nodup) :
    (employeePaymentsOf contracts a1 a2).length =
      a1.paymentsByContract.countP (fun kv => decide (0 < kv.2)) := by
  rw [employeePaymentsOf, ← List.countP_eq_length_filter, List.countP_map]
  have hfun : ((fun p : EmployeePayment => decide (0 < p.amount)) ∘
      mkEmployeePayment contracts a1 a2) =
      (fun cid => decide (0 < (alookup a1.paymentsByContract cid).getD 0)) := by
    funext cid
    rw [Function.comp_apply, mk_amount]
  rw [hfun, firstDedup_append _ _ h1, List.countP_append]
  have hzero : ((firstDedup (akeys a2.paymentsByContract)).filter
      (fun y => decide (y ∉ akeys a1.paymentsByContract))).countP
      (fun cid => decide (0 < (alookup a1.paymentsByContract cid).getD 0)) = 0 := by
    rw [List.countP_eq_zero]
    intro x hx
    simp only [List.mem_filter, decide_eq_true_eq] at hx
    have hnone : alookup a1.paymentsByContract x = none :=
      (alookup_eq_none _ _).mpr hx.2
    simp [hnone]
  rw [hzero, countP_keys _ h1, Nat.add_zero]

theorem tagTop_amount (ids : List String) (p : EmployeePayment) :
    (tagTop ids p).amount = p.amount := rfl

theorem tagTop_contractId (ids : List String) (p : EmployeePayment) :
    (tagTop ids p).contractId = p.contractId := rfl

theorem tagTop_previousAmount (ids : List String) (p : EmployeePayment) :
    (tagTop ids p).previousAmount = p.previousAmount := rfl

theorem tagTop_change (ids : List String) (p : EmployeePayment) :
    (tagTop ids p).change = p.change := rfl

theorem tagTop_percentChange (ids : List String) (p : EmployeePayment) :
    (tagTop ids p).percentChange = p.percentChange := rfl

theorem tagTop_isTopChange (ids : List String) (p : EmployeePayment) :
    (tagTop ids p).isTopChange = some (ids.contains p.contractId) := rfl

/-- Membership in the rendered `period1.payments` list: exactly the
comparison rows, re-tagged with their top-change status (the final sort
by descending amount permutes but does not change membership). -/
theorem mem_period1_payments (contracts : List DeelContract)
    (p1 p2 : List PaymentResponse) (l1 l2 : String) (e : EmployeePayment) :
    e ∈ (processDashboardData contracts p1 p2 l1 l2).period1.payments ↔
      ∃ e', e' ∈ employeePaymentsOf contracts
          (processPayments (contracts.map DeelContract.id) p1)
          (processPayments (contracts.map DeelContract.id) p2) ∧
        e = tagTop ((topChangesOf (employeePaymentsOf contracts
          (processPayments (contracts.map DeelContract.id) p1)
          (processPayments (contracts.map DeelContract.id) p2))).map
            EmployeePayment.contractId) e' := by
  show e ∈ List.insertionSort amountDescOrder (List.map _ _) ↔ _
  rw [List.mem_insertionSort, List.mem_map]
  constructor
  · rintro ⟨e', he', rfl⟩
    exact ⟨e', he', rfl⟩
  · rintro ⟨e', he', rfl⟩
    exact ⟨e', he', rfl⟩

/-! ### C2: aggregation invariants (conservation and worker counts) -/

/-- Claim C2, amended: for every category (contract subset) and both
periods, `totalCost` equals the sum of the `perWorker`
(`paymentsByContract`) values; the current period's `workerCount` equals
the number of `perWorker` entries whose summed amount is strictly
positive (zero and negative sums are excluded alike), while the
comparison period's `workerCount` counts every `perWorker` entry,
zero-amount entries included. -/
theorem C2_conservation_and_counts (contracts : List DeelContract)
    (p1 p2 : List PaymentResponse) (l1 l2 : String) :
    (processDashboardData contracts p1 p2 l1 l2).period1.totalCost =
      sumVals (processPayments (contracts.map DeelContract.id) p1).paymentsByContract ∧
    (processDashboardData contracts p1 p2 l1 l2).period2.totalCost =
      sumVals (processPayments (contracts.map DeelContract.id) p2).paymentsByContract ∧
    (processDashboardData contracts p1 p2 l1 l2).period1.count =
      (processPayments (contracts.map DeelContract.id) p1).paymentsByContract.countP
        (fun kv => decide (0 < kv.2)) ∧
    (processDashboardData contracts p1 p2 l1 l2).period2.count =
      (processPayments (contracts.map DeelContract.id) p2).paymentsByContract.length := by
  refine ⟨processPayments_conservation _ _, processPayments_conservation _ _, ?_, ?_⟩
  · exact employeePaymentsOf_length _ _ _ (processPayments_nodup _ _)
  · show (akeys _).length = _
    rw [akeys, List.length_map]

theorem parseAmount_zero : parseAmount "0" = some 0 := by
  rw [show parseAmount "0" =
    some ((1 : ℚ) * (((0 : ℕ) : ℚ) + ((0 : ℕ) : ℚ) / 10 ^ (0 : ℕ)) * (10 : ℚ) ^ (0 : ℤ))
    from rfl]
  norm_num

/-- Claim C2 is false as stated: a single in-scope USD payment of amount
`"0"` in the comparison period creates the zero-sum `perWorker` entry
`("c1", 0)`, and the comparison period's reported `workerCount` is `1` —
the zero-amount entry is not excluded (the count with zero-amount entries
excluded would be `0`). -/
theorem C2_counterexample :
    (processDashboardData [⟨"c1", "T1", "eor", "active", none, none⟩] []
      [⟨⟨"0", none⟩, ⟨"c1", "N1"⟩⟩] "A" "B").period2.count = 1 ∧
    ((processPayments ["c1"] [⟨⟨"0", none⟩, ⟨"c1", "N1"⟩⟩]).paymentsByContract.filter
      (fun kv => decide (kv.2 ≠ 0))).length = 0 := by
  have hpbc : (processPayments ["c1"] [⟨⟨"0", none⟩, ⟨"c1", "N1"⟩⟩]).paymentsByContract =
      [("c1", (1 : ℚ) * (((0 : ℕ) : ℚ) + ((0 : ℕ) : ℚ) / 10 ^ (0 : ℕ)) *
        (10 : ℚ) ^ (0 : ℤ))] := rfl
  have hval : (1 : ℚ) * (((0 : ℕ) : ℚ) + ((0 : ℕ) : ℚ) / 10 ^ (0 : ℕ)) *
      (10 : ℚ) ^ (0 : ℤ) = 0 := by norm_num
  have hpbc0 : (processPayments ["c1"] [⟨⟨"0", none⟩, ⟨"c1", "N1"⟩⟩]).paymentsByContract =
      [("c1", (0 : ℚ))] := by rw [hpbc, hval]
  constructor
  · show (akeys (processPayments ["c1"] [⟨⟨"0", none⟩, ⟨"c1", "N1"⟩⟩]).paymentsByContract).length = 1
    rw [hpbc0]
    rfl
  · rw [hpbc0]
    simp

/-! ### C10: strictly-positive filter on the current listing -/

/-- Claim C10: every row of the current per-worker listing has a strictly
positive summed amount (workers summing to zero or a negative value are
excluded from the listing); the current worker count equals the number of
strictly positive per-contract sums; yet the period's `totalCost` is the
sum over all per-contract entries, the excluded workers' sums included. -/
theorem C10_positive_only_listing (contracts : List DeelContract)
    (p1 p2 : List PaymentResponse) (l1 l2 : String) :
    (∀ e ∈ (processDashboardData contracts p1 p2 l1 l2).period1.payments,
      0 < e.amount) ∧
    (processDashboardData contracts p1 p2 l1 l2).period1.count =
      (processPayments (contracts.map DeelContract.id) p1).paymentsByContract.countP
        (fun kv => decide (0 < kv.2)) ∧
    (processDashboardData contracts p1 p2 l1 l2).period1.totalCost =
      sumVals (processPayments (contracts.map DeelContract.id) p1).paymentsByContract := by
  refine ⟨?_, employeePaymentsOf_length _ _ _ (processPayments_nodup _ _),
    processPayments_conservation _ _⟩
  intro e he
  rw [mem_period1_payments] at he
  obtain ⟨e', he', rfl⟩ := he
  rw [tagTop_amount]
  obtain ⟨cid, _, heq, hpos⟩ := (mem_employeePaymentsOf _ _ _ _).mp he'
  exact heq ▸ hpos

/-- Witness for C10's theorem: a worker paid `"100"` in the current
period appears in the listing (tagged, not a top change since there is no
comparison data) and the theorem yields its positive amount. -/
theorem C10_positive_only_listing_witness :
    (⟨"c1", "T1", "N/A", "active", 100, none, none, none, some false⟩ : EmployeePayment) ∈
      (processDashboardData [⟨"c1", "T1", "eor", "active", none, none⟩]
        [⟨⟨"100", none⟩, ⟨"c1", "N1"⟩⟩] [] "A" "B").period1.payments ∧
    (0 : ℚ) <
      (⟨"c1", "T1", "N/A", "active", 100, none, none, none, some false⟩ :
        EmployeePayment).amount := by
  have ha1 : processPayments ["c1"] [⟨⟨"100", none⟩, ⟨"c1", "N1"⟩⟩] =
      (⟨100, [("c1", 100)]⟩ : PeriodAgg) := by
    rw [show processPayments ["c1"] [⟨⟨"100", none⟩, ⟨"c1", "N1"⟩⟩] =
      (⟨0 + (1 : ℚ) * (((100 : ℕ) : ℚ) + ((0 : ℕ) : ℚ) / 10 ^ (0 : ℕ)) * (10 : ℚ) ^ (0 : ℤ),
        [("c1", (1 : ℚ) * (((100 : ℕ) : ℚ) + ((0 : ℕ) : ℚ) / 10 ^ (0 : ℕ)) *
          (10 : ℚ) ^ (0 : ℤ))]⟩ : PeriodAgg) from rfl]
    norm_num
  have hmem : (⟨"c1", "T1", "N/A", "active", 100, none, none, none, some false⟩ :
      EmployeePayment) ∈
      (processDashboardData [⟨"c1", "T1", "eor", "active", none, none⟩]
        [⟨⟨"100", none⟩, ⟨"c1", "N1"⟩⟩] [] "A" "B").period1.payments := by
    rw [mem_period1_payments]
    rw [show List.map DeelContract.id [⟨"c1", "T1", "eor", "active", none, none⟩] =
      ["c1"] from rfl, ha1]
    rw [show processPayments ["c1"] ([] : List PaymentResponse) =
      (⟨0, []⟩ : PeriodAgg) from rfl]
    rw [show employeePaymentsOf [⟨"c1", "T1", "eor", "active", none, none⟩]
      (⟨100, [("c1", 100)]⟩ : PeriodAgg) (⟨0, []⟩ : PeriodAgg) =
      [⟨"c1", "T1", "N/A", "active", 100, none, none, none, none⟩] from by decide]
    exact ⟨⟨"c1", "T1", "N/A", "active", 100, none, none, none, none⟩,
      List.mem_singleton.mpr rfl, by decide⟩
  exact ⟨hmem, (C10_positive_only_listing _ _ _ _ _).1 _ hmem⟩

/-! ### Helper lemmas: dropping immaterial payment records -/

/-- A record that fails the USD/in-scope filter can be removed from the
payment list without changing the aggregation. -/
theorem processPayments_drop (ids : List String) (pre post : List PaymentResponse)
    (p : PaymentResponse) (hg : usdInScope ids p = false) :
    processPayments ids (pre ++ p :: post) = processPayments ids (pre ++ post) := by
  simp only [processPayments]
  have hfilter : (pre ++ p :: post).filter (usdInScope ids) =
      (pre ++ post).filter (usdInScope ids) := by
    rw [List.filter_append, List.filter_append]
    simp [List.filter_cons, hg]
  rw [hfilter]

/-- An in-scope record whose amount fails to parse contributes zero to
the total and no per-contract entry: removing it changes nothing. -/
theorem processPayments_skip_unparsed (ids : List String)
    (pre post : List PaymentResponse) (p : PaymentResponse)
    (hnone : parseAmount p.line_item.amount = none) :
    processPayments ids (pre ++ p :: post) = processPayments ids (pre ++ post) := by
  by_cases hg : usdInScope ids p
  · simp only [processPayments]
    have hfilter : (pre ++ p :: post).filter (usdInScope ids) =
        pre.filter (usdInScope ids) ++ p :: post.filter (usdInScope ids) := by
      rw [List.filter_append]
      simp [List.filter_cons, hg]
    have hfilter2 : (pre ++ post).filter (usdInScope ids) =
        pre.filter (usdInScope ids) ++ post.filter (usdInScope ids) := by
      rw [List.filter_append]
    rw [hfilter, hfilter2]
    congr 1
    · rw [List.foldl_append, List.foldl_append, List.foldl_cons, hnone]
      simp
    · rw [List.foldl_append, List.foldl_append, List.foldl_cons, hnone]
  · exact processPayments_drop ids pre post p (by simpa using hg)

theorem stripCommas_idem (s : String) : stripCommas (stripCommas s) = stripCommas s := by
  simp only [stripCommas, List.toList_asString, List.filter_filter]
  congr 1
  refine List.filter_congr ?_
  intro c _
  simp [Bool.and_self]

/-! ### C6: currency and scope exclusion -/

/-- Claim C6: a record with no currency field defaults to `"USD"`; a
record whose (normalised) currency is not `"USD"`, or whose contract
identifier is outside the category's contract-identifier set, contributes
nothing — removing it from anywhere in the payment list leaves both
`totalCost` and `perWorker` unchanged; and the aggregation only ever sums
the records that pass the USD/in-scope filter. -/
theorem C6_currency_exclusion (ids : List String) (pre post : List PaymentResponse)
    (p : PaymentResponse) :
    (p.line_item.currency = none → currencyOf p = "USD") ∧
    (currencyOf p ≠ "USD" →
      processPayments ids (pre ++ p :: post) = processPayments ids (pre ++ post)) ∧
    (p.contract.id ∉ ids →
      processPayments ids (pre ++ p :: post) = processPayments ids (pre ++ post)) ∧
    processPayments ids ((pre ++ post).filter (usdInScope ids)) =
      processPayments ids (pre ++ post) := by
  refine ⟨?_, ?_, ?_, ?_⟩
  · intro h
    simp [currencyOf, h]
  · intro h
    refine processPayments_drop ids pre post p ?_
    simp [usdInScope, h]
  · intro h
    refine processPayments_drop ids pre post p ?_
    simp only [usdInScope, Bool.and_eq_false_iff]
    right
    simpa using h
  · simp only [processPayments, List.filter_filter]
    have hsame : (pre ++ post).filter (fun a => usdInScope ids a && usdInScope ids a) =
        (pre ++ post).filter (usdInScope ids) := by
      refine List.filter_congr ?_
      intro q _
      simp [Bool.and_self]
    rw [hsame]

/-- Witness for C6's theorem: a defaulted-currency record, a `"EUR"`
record dropped from a singleton list, and an out-of-scope record dropped
from a singleton list. -/
theorem C6_currency_exclusion_witness :
    currencyOf ⟨⟨"100", none⟩, ⟨"c1", "N1"⟩⟩ = "USD" ∧
    processPayments ["c1"] ([] ++ (⟨⟨"100", some "EUR"⟩, ⟨"c1", "N1"⟩⟩ : PaymentResponse) :: []) =
      processPayments ["c1"] ([] ++ []) ∧
    processPayments ["c1"] ([] ++ (⟨⟨"100", none⟩, ⟨"c9", "N9"⟩⟩ : PaymentResponse) :: []) =
      processPayments ["c1"] ([] ++ []) :=
  ⟨(C6_currency_exclusion ["c1"] [] [] ⟨⟨"100", none⟩, ⟨"c1", "N1"⟩⟩).1 rfl,
   (C6_currency_exclusion ["c1"] [] [] ⟨⟨"100", some "EUR"⟩, ⟨"c1", "N1"⟩⟩).2.1 (by decide),
   (C6_currency_exclusion ["c1"] [] [] ⟨⟨"100", none⟩, ⟨"c9", "N9"⟩⟩).2.2.1 (by decide)⟩

/-! ### C7: lenient amount parsing -/

/-- Claim C7: the amount parser first strips every comma, so commas in
the amount string are immaterial (`"12,345.67"` parses as `12345.67`);
and an in-scope record whose amount string fails to parse contributes
zero to every sum — `totalCost` and the per-worker sums are as if the
record were absent — instead of raising an error. -/
theorem C7_amount_parsing (ids : List String) (pre post : List PaymentResponse)
    (p : PaymentResponse) (s : String) :
    parseAmount s = parseAmount (stripCommas s) ∧
    parseAmount "12,345.67" = some (1234567 / 100) ∧
    (usdInScope ids p = true → parseAmount p.line_item.amount = none →
      processPayments ids (pre ++ p :: post) = processPayments ids (pre ++ post)) := by
  refine ⟨?_, ?_, ?_⟩
  · rw [parseAmount, parseAmount, stripCommas_idem]
  · rw [show parseAmount "12,345.67" =
      some ((1 : ℚ) * (((12345 : ℕ) : ℚ) + ((67 : ℕ) : ℚ) / 10 ^ (2 : ℕ)) *
        (10 : ℚ) ^ (0 : ℤ)) from rfl]
    norm_num
  · intro _ hnone
    exact processPayments_skip_unparsed ids pre post p hnone

/-- Witness for C7's theorem: the malformed in-scope amount `"abc"`
contributes nothing to the aggregation of a two-record list. -/
theorem C7_amount_parsing_witness :
    processPayments ["c1"] ([] ++ (⟨⟨"abc", none⟩, ⟨"c1", "N1"⟩⟩ : PaymentResponse) ::
        [⟨⟨"100", none⟩, ⟨"c1", "N1"⟩⟩]) =
      processPayments ["c1"] ([] ++ [⟨⟨"100", none⟩, ⟨"c1", "N1"⟩⟩]) :=
  (C7_amount_parsing ["c1"] [] [⟨⟨"100", none⟩, ⟨"c1", "N1"⟩⟩]
    ⟨⟨"abc", none⟩, ⟨"c1", "N1"⟩⟩ "").2.2 (by decide) rfl

/-! ### C9: new-worker marking and missing-worker exclusion -/

/-- Claim C9: the comparison rows range over the union of both periods'
contract identifiers; a row's `previousAmount` is exactly the previous
period's per-contract sum (undefined when absent), and a worker with no
previous-period amount is the `New` case — `previousAmount`, `diff` and
`percentChange` are all left undefined rather than computed as zero; a
worker who has a previous-period sum but no current-period entry is
excluded from the current listing. -/
theorem C9_new_and_missing_workers (contracts : List DeelContract)
    (p1 p2 : List PaymentResponse) (l1 l2 : String) :
    (∀ e ∈ (processDashboardData contracts p1 p2 l1 l2).period1.payments,
      e.previousAmount =
        alookup (processPayments (contracts.map DeelContract.id) p2).paymentsByContract
          e.contractId ∧
      (e.previousAmount = none → e.change = none ∧ e.percentChange = none)) ∧
    (∀ cid, cid ∈ akeys (processPayments (contracts.map DeelContract.id) p2).paymentsByContract →
      alookup (processPayments (contracts.map DeelContract.id) p1).paymentsByContract cid =
        none →
      ∀ e ∈ (processDashboardData contracts p1 p2 l1 l2).period1.payments,
        e.contractId ≠ cid) := by
  constructor
  · intro e he
    rw [mem_period1_payments] at he
    obtain ⟨e', he', rfl⟩ := he
    obtain ⟨cid, _, rfl, _⟩ := (mem_employeePaymentsOf _ _ _ _).mp he'
    rw [tagTop_previousAmount, tagTop_change, tagTop_percentChange, tagTop_contractId,
      mk_contractId, mk_previousAmount, mk_change, mk_percentChange]
    refine ⟨rfl, ?_⟩
    intro hnone
    rw [hnone]
    exact ⟨rfl, rfl⟩
  · intro cid _ hnone e he hcontra
    rw [mem_period1_payments] at he
    obtain ⟨e', he', rfl⟩ := he
    obtain ⟨cid', _, rfl, hpos⟩ := (mem_employeePaymentsOf _ _ _ _).mp he'
    rw [tagTop_contractId, mk_contractId] at hcontra
    subst hcontra
    rw [mk_amount, hnone] at hpos
    simp at hpos

/-- Witness for C9's theorem: with worker `c1` paid `"100"` only in the
current period and worker `c2` paid `"50"` only in the previous period,
the `c1` row is New (no previous amount, no diff, no percent change) and
no current row belongs to `c2`. -/
theorem C9_new_and_missing_workers_witness :
    ((⟨"c1", "T1", "N/A", "active", 100, none, none, none, some false⟩ :
        EmployeePayment).change = none ∧
      (⟨"c1", "T1", "N/A", "active", 100, none, none, none, some false⟩ :
        EmployeePayment).percentChange = none) ∧
    (∀ e ∈ (processDashboardData
        [⟨"c1", "T1", "eor", "active", none, none⟩, ⟨"c2", "T2", "eor", "active", none, none⟩]
        [⟨⟨"100", none⟩, ⟨"c1", "N1"⟩⟩] [⟨⟨"50", none⟩, ⟨"c2", "N2"⟩⟩] "A" "B").period1.payments,
      e.contractId ≠ "c2") := by
  have hids : List.map DeelContract.id
      [(⟨"c1", "T1", "eor", "active", none, none⟩ : DeelContract),
       ⟨"c2", "T2", "eor", "active", none, none⟩] = ["c1", "c2"] := rfl
  have ha1 : processPayments ["c1", "c2"] [⟨⟨"100", none⟩, ⟨"c1", "N1"⟩⟩] =
      (⟨100, [("c1", 100)]⟩ : PeriodAgg) := by
    rw [show processPayments ["c1", "c2"] [⟨⟨"100", none⟩, ⟨"c1", "N1"⟩⟩] =
      (⟨0 + (1 : ℚ) * (((100 : ℕ) : ℚ) + ((0 : ℕ) : ℚ) / 10 ^ (0 : ℕ)) * (10 : ℚ) ^ (0 : ℤ),
        [("c1", (1 : ℚ) * (((100 : ℕ) : ℚ) + ((0 : ℕ) : ℚ) / 10 ^ (0 : ℕ)) *
          (10 : ℚ) ^ (0 : ℤ))]⟩ : PeriodAgg) from rfl]
    norm_num
  have ha2 : processPayments ["c1", "c2"] [⟨⟨"50", none⟩, ⟨"c2", "N2"⟩⟩] =
      (⟨50, [("c2", 50)]⟩ : PeriodAgg) := by
    rw [show processPayments ["c1", "c2"] [⟨⟨"50", none⟩, ⟨"c2", "N2"⟩⟩] =
      (⟨0 + (1 : ℚ) * (((50 : ℕ) : ℚ) + ((0 : ℕ) : ℚ) / 10 ^ (0 : ℕ)) * (10 : ℚ) ^ (0 : ℤ),
        [("c2", (1 : ℚ) * (((50 : ℕ) : ℚ) + ((0 : ℕ) : ℚ) / 10 ^ (0 : ℕ)) *
          (10 : ℚ) ^ (0 : ℤ))]⟩ : PeriodAgg) from rfl]
    norm_num
  have hmem : (⟨"c1", "T1", "N/A", "active", 100, none, none, none, some false⟩ :
      EmployeePayment) ∈
      (processDashboardData
        [⟨"c1", "T1", "eor", "active", none, none⟩, ⟨"c2", "T2", "eor", "active", none, none⟩]
        [⟨⟨"100", none⟩, ⟨"c1", "N1"⟩⟩] [⟨⟨"50", none⟩, ⟨"c2", "N2"⟩⟩] "A" "B").period1.payments := by
    rw [mem_period1_payments, hids, ha1, ha2]
    rw [show employeePaymentsOf
      [⟨"c1", "T1", "eor", "active", none, none⟩, ⟨"c2", "T2", "eor", "active", none, none⟩]
      (⟨100, [("c1", 100)]⟩ : PeriodAgg) (⟨50, [("c2", 50)]⟩ : PeriodAgg) =
      [⟨"c1", "T1", "N/A", "active", 100, none, none, none, none⟩] from by decide]
    exact ⟨⟨"c1", "T1", "N/A", "active", 100, none, none, none, none⟩,
      List.mem_singleton.mpr rfl, by decide⟩
  constructor
  · exact ((C9_new_and_missing_workers _ _ _ _ _).1 _ hmem).2 rfl
  · refine (C9_new_and_missing_workers _ _ _ _ _).2 "c2" ?_ ?_
    · rw [hids, ha2]
      decide
    · rw [hids, ha1]
      decide

/-! ### C5: top-five absolute changes -/

theorem employeePaymentsOf_isTopChange (contracts : List DeelContract)
    (a1 a2 : PeriodAgg) :
    ∀ e ∈ employeePaymentsOf contracts a1 a2, e.isTopChange = none := by
  intro e he
  obtain ⟨cid, _, rfl, _⟩ := (mem_employeePaymentsOf _ _ _ _).mp he
  exact mk_isTopChange _ _ _ _

theorem untag_of_none (p : EmployeePayment) (h : p.isTopChange = none) :
    { p with isTopChange := none } = p := by
  cases p
  simp_all

/-- Claim C5: among the comparison rows with a defined, nonzero change,
`topChanges` is (up to the `isTopChange` tag) a selection of at most five
of them — exactly five when five are available — ordered by descending
absolute change, every selected row dominating every unselected eligible
row in absolute change; each selected row is tagged `isTopChange = true`,
and in the full rendered per-worker list a row carries `isTopChange =
true` exactly when its contract identifier is one of the top changes. -/
theorem C5_top_changes (contracts : List DeelContract)
    (p1 p2 : List PaymentResponse) (l1 l2 : String) :
    (processDashboardData contracts p1 p2 l1 l2).topChanges.length =
      min 5 ((employeePaymentsOf contracts
        (processPayments (contracts.map DeelContract.id) p1)
        (processPayments (contracts.map DeelContract.id) p2)).filter
          eligibleChange).length ∧
    (processDashboardData contracts p1 p2 l1 l2).topChanges.Pairwise absDescOrder ∧
    (∀ x ∈ (processDashboardData contracts p1 p2 l1 l2).topChanges,
      x.isTopChange = some true ∧ eligibleChange x = true) ∧
    (∃ rest,
      List.Perm ((employeePaymentsOf contracts
          (processPayments (contracts.map DeelContract.id) p1)
          (processPayments (contracts.map DeelContract.id) p2)).filter eligibleChange)
        (((processDashboardData contracts p1 p2 l1 l2).topChanges.map
          (fun p => { p with isTopChange := none })) ++ rest) ∧
      ∀ x ∈ (processDashboardData contracts p1 p2 l1 l2).topChanges,
        ∀ y ∈ rest, absChange y ≤ absChange x) ∧
    (∀ p ∈ (processDashboardData contracts p1 p2 l1 l2).period1.payments,
      (p.isTopChange = some true ↔
        p.contractId ∈ (processDashboardData contracts p1 p2 l1 l2).topChanges.map
          EmployeePayment.contractId)) := by
  have hdef : (processDashboardData contracts p1 p2 l1 l2).topChanges =
      ((((employeePaymentsOf contracts
        (processPayments (contracts.map DeelContract.id) p1)
        (processPayments (contracts.map DeelContract.id) p2)).filter
          eligibleChange).insertionSort absDescOrder).take 5).map
        (fun p => { p with isTopChange := some true }) := rfl
  refine ⟨?_, ?_, ?_, ?_, ?_⟩
  · rw [hdef, List.length_map, List.length_take, List.length_insertionSort]
  · rw [hdef]
    refine List.pairwise_map.mpr ?_
    exact (List.sorted_insertionSort absDescOrder _).sublist (List.take_sublist 5 _)
  · rw [hdef]
    intro x hx
    obtain ⟨x', hx', rfl⟩ := List.mem_map.mp hx
    have hx'elig : x' ∈ (employeePaymentsOf contracts
        (processPayments (contracts.map DeelContract.id) p1)
        (processPayments (contracts.map DeelContract.id) p2)).filter eligibleChange := by
      have := (List.take_sublist 5 _).mem hx'
      rwa [List.mem_insertionSort] at this
    exact ⟨rfl, (List.mem_filter.mp hx'elig).2⟩
  · refine ⟨(((employeePaymentsOf contracts
        (processPayments (contracts.map DeelContract.id) p1)
        (processPayments (contracts.map DeelContract.id) p2)).filter
          eligibleChange).insertionSort absDescOrder).drop 5, ?_, ?_⟩
    · have huntag : ((processDashboardData contracts p1 p2 l1 l2).topChanges.map
          (fun p => { p with isTopChange := none })) =
          (((employeePaymentsOf contracts
            (processPayments (contracts.map DeelContract.id) p1)
            (processPayments (contracts.map DeelContract.id) p2)).filter
              eligibleChange).insertionSort absDescOrder).take 5 := by
        rw [hdef, List.map_map]
        have hid : ∀ x ∈ (((employeePaymentsOf contracts
            (processPayments (contracts.map DeelContract.id) p1)
            (processPayments (contracts.map DeelContract.id) p2)).filter
              eligibleChange).insertionSort absDescOrder).take 5,
            ((fun p : EmployeePayment => { p with isTopChange := none }) ∘
              (fun p : EmployeePayment => { p with isTopChange := some true })) x = id x := by
          intro x hx
          have hmem : x ∈ employeePaymentsOf contracts
              (processPayments (contracts.map DeelContract.id) p1)
              (processPayments (contracts.map DeelContract.id) p2) := by
            have := (List.take_sublist 5 _).mem hx
            rw [List.mem_insertionSort] at this
            exact (List.mem_filter.mp this).1
          exact untag_of_none x (employeePaymentsOf_isTopChange _ _ _ x hmem)
        rw [List.map_congr_left hid, List.map_id]
      rw [huntag, List.take_append_drop]
      exact (List.perm_insertionSort _ _).symm
    · intro x hx y hy
      rw [hdef] at hx
      obtain ⟨x', hx', rfl⟩ := List.mem_map.mp hx
      have hpw : ((((employeePaymentsOf contracts
          (processPayments (contracts.map DeelContract.id) p1)
          (processPayments (contracts.map DeelContract.id) p2)).filter
            eligibleChange).insertionSort absDescOrder).take 5 ++
          (((employeePaymentsOf contracts
          (processPayments (contracts.map DeelContract.id) p1)
          (processPayments (contracts.map DeelContract.id) p2)).filter
            eligibleChange).insertionSort absDescOrder).drop 5).Pairwise
          absDescOrder := by
        rw [List.take_append_drop]
        exact List.sorted_insertionSort absDescOrder _
      exact (List.pairwise_append.mp hpw).2.2 x' hx' y hy
  · intro p hp
    rw [mem_period1_payments] at hp
    obtain ⟨e', he', rfl⟩ := hp
    rw [tagTop_isTopChange, tagTop_contractId,
      show (processDashboardData contracts p1 p2 l1 l2).topChanges =
        topChangesOf (employeePaymentsOf contracts
          (processPayments (contracts.map DeelContract.id) p1)
          (processPayments (contracts.map DeelContract.id) p2)) from rfl]
    simp

/-- Witness for C5's theorem: with worker `c1` going from `"100"` to
`"150"` (change `50`) and worker `c2` new at `"80"` (no change), `c1` is
the single top change: tagged, eligible, and tagged in the rendered
list. -/
theorem C5_top_changes_witness :
    (⟨"c1", "T1", "N/A", "active", 150, some 100, some 50, some 50, some true⟩ :
      EmployeePayment).isTopChange = some true ∧
    eligibleChange (⟨"c1", "T1", "N/A", "active", 150, some 100, some 50, some 50,
      some true⟩ : EmployeePayment) = true ∧
    ((⟨"c1", "T1", "N/A", "active", 150, some 100, some 50, some 50, some true⟩ :
        EmployeePayment).isTopChange = some true ↔
      (⟨"c1", "T1", "N/A", "active", 150, some 100, some 50, some 50, some true⟩ :
        EmployeePayment).contractId ∈
        (processDashboardData
          [⟨"c1", "T1", "eor", "active", none, none⟩, ⟨"c2", "T2", "eor", "active", none, none⟩]
          [⟨⟨"150", none⟩, ⟨"c1", "N1"⟩⟩, ⟨⟨"80", none⟩, ⟨"c2", "N2"⟩⟩]
          [⟨⟨"100", none⟩, ⟨"c1", "N1"⟩⟩] "A" "B").topChanges.map
            EmployeePayment.contractId) := by
  have hids : List.map DeelContract.id
      [(⟨"c1", "T1", "eor", "active", none, none⟩ : DeelContract),
       ⟨"c2", "T2", "eor", "active", none, none⟩] = ["c1", "c2"] := rfl
  have ha1 : processPayments ["c1", "c2"]
      [⟨⟨"150", none⟩, ⟨"c1", "N1"⟩⟩, ⟨⟨"80", none⟩, ⟨"c2", "N2"⟩⟩] =
      (⟨230, [("c1", 150), ("c2", 80)]⟩ : PeriodAgg) := by
    rw [show processPayments ["c1", "c2"]
      [⟨⟨"150", none⟩, ⟨"c1", "N1"⟩⟩, ⟨⟨"80", none⟩, ⟨"c2", "N2"⟩⟩] =
      (⟨0 + (1 : ℚ) * (((150 : ℕ) : ℚ) + ((0 : ℕ) : ℚ) / 10 ^ (0 : ℕ)) * (10 : ℚ) ^ (0 : ℤ)
          + (1 : ℚ) * (((80 : ℕ) : ℚ) + ((0 : ℕ) : ℚ) / 10 ^ (0 : ℕ)) * (10 : ℚ) ^ (0 : ℤ),
        [("c1", (1 : ℚ) * (((150 : ℕ) : ℚ) + ((0 : ℕ) : ℚ) / 10 ^ (0 : ℕ)) * (10 : ℚ) ^ (0 : ℤ)),
         ("c2", (1 : ℚ) * (((80 : ℕ) : ℚ) + ((0 : ℕ) : ℚ) / 10 ^ (0 : ℕ)) *
           (10 : ℚ) ^ (0 : ℤ))]⟩ : PeriodAgg) from rfl]
    norm_num
  have ha2 : processPayments ["c1", "c2"] [⟨⟨"100", none⟩, ⟨"c1", "N1"⟩⟩] =
      (⟨100, [("c1", 100)]⟩ : PeriodAgg) := by
    rw [show processPayments ["c1", "c2"] [⟨⟨"100", none⟩, ⟨"c1", "N1"⟩⟩] =
      (⟨0 + (1 : ℚ) * (((100 : ℕ) : ℚ) + ((0 : ℕ) : ℚ) / 10 ^ (0 : ℕ)) * (10 : ℚ) ^ (0 : ℤ),
        [("c1", (1 : ℚ) * (((100 : ℕ) : ℚ) + ((0 : ℕ) : ℚ) / 10 ^ (0 : ℕ)) *
          (10 : ℚ) ^ (0 : ℤ))]⟩ : PeriodAgg) from rfl]
    norm_num
  have heplit : employeePaymentsOf
      [⟨"c1", "T1", "eor", "active", none, none⟩, ⟨"c2", "T2", "eor", "active", none, none⟩]
      (⟨230, [("c1", 150), ("c2", 80)]⟩ : PeriodAgg) (⟨100, [("c1", 100)]⟩ : PeriodAgg) =
      [⟨"c1", "T1", "N/A", "active", 150, some 100, some 50, some 50, none⟩,
       ⟨"c2", "T2", "N/A", "active", 80, none, none, none, none⟩] := by
    rw [show employeePaymentsOf
      [⟨"c1", "T1", "eor", "active", none, none⟩, ⟨"c2", "T2", "eor", "active", none, none⟩]
      (⟨230, [("c1", 150), ("c2", 80)]⟩ : PeriodAgg) (⟨100, [("c1", 100)]⟩ : PeriodAgg) =
      [⟨"c1", "T1", "N/A", "active", 150, some 100, some ((150 : ℚ) - 100),
          some (if (100 : ℚ) ≠ 0 then ((150 : ℚ) - 100) / 100 * 100 else 100), none⟩,
       ⟨"c2", "T2", "N/A", "active", 80, none, none, none, none⟩] from rfl]
    norm_num
  have hmemTC : (⟨"c1", "T1", "N/A", "active", 150, some 100, some 50, some 50,
      some true⟩ : EmployeePayment) ∈
      (processDashboardData
        [⟨"c1", "T1", "eor", "active", none, none⟩, ⟨"c2", "T2", "eor", "active", none, none⟩]
        [⟨⟨"150", none⟩, ⟨"c1", "N1"⟩⟩, ⟨⟨"80", none⟩, ⟨"c2", "N2"⟩⟩]
        [⟨⟨"100", none⟩, ⟨"c1", "N1"⟩⟩] "A" "B").topChanges := by
    rw [show (processDashboardData
        [⟨"c1", "T1", "eor", "active", none, none⟩, ⟨"c2", "T2", "eor", "active", none, none⟩]
        [⟨⟨"150", none⟩, ⟨"c1", "N1"⟩⟩, ⟨⟨"80", none⟩, ⟨"c2", "N2"⟩⟩]
        [⟨⟨"100", none⟩, ⟨"c1", "N1"⟩⟩] "A" "B").topChanges =
      topChangesOf (employeePaymentsOf
        [⟨"c1", "T1", "eor", "active", none, none⟩, ⟨"c2", "T2", "eor", "active", none, none⟩]
        (processPayments ["c1", "c2"]
          [⟨⟨"150", none⟩, ⟨"c1", "N1"⟩⟩, ⟨⟨"80", none⟩, ⟨"c2", "N2"⟩⟩])
        (processPayments ["c1", "c2"] [⟨⟨"100", none⟩, ⟨"c1", "N1"⟩⟩])) from rfl]
    rw [ha1, ha2, heplit]
    rw [show topChangesOf
      [⟨"c1", "T1", "N/A", "active", 150, some 100, some 50, some 50, none⟩,
       ⟨"c2", "T2", "N/A", "active", 80, none, none, none, none⟩] =
      [⟨"c1", "T1", "N/A", "active", 150, some 100, some 50, some 50, some true⟩]
      from by decide]
    exact List.mem_singleton.mpr rfl
  have hmemP : (⟨"c1", "T1", "N/A", "active", 150, some 100, some 50, some 50,
      some true⟩ : EmployeePayment) ∈
      (processDashboardData
        [⟨"c1", "T1", "eor", "active", none, none⟩, ⟨"c2", "T2", "eor", "active", none, none⟩]
        [⟨⟨"150", none⟩, ⟨"c1", "N1"⟩⟩, ⟨⟨"80", none⟩, ⟨"c2", "N2"⟩⟩]
        [⟨⟨"100", none⟩, ⟨"c1", "N1"⟩⟩] "A" "B").period1.payments := by
    rw [mem_period1_payments, hids, ha1, ha2, heplit]
    refine ⟨⟨"c1", "T1", "N/A", "active", 150, some 100, some 50, some 50, none⟩,
      List.mem_cons_self _ _, ?_⟩
    decide
  refine ⟨?_, ?_, ?_⟩
  · exact ((C5_top_changes _ _ _ _ _).2.2.1 _ hmemTC).1
  · exact ((C5_top_changes _ _ _ _ _).2.2.1 _ hmemTC).2
  · exact (C5_top_changes _ _ _ _ _).2.2.2.2 _ hmemP

end Payroll
